import Mathlib

/-!
Verification of the AlphaPy `data` module (alphapy/data.py).

The development shallowly embeds the two core pipelines of the module:

* the quote-feed pipeline: `get_google_data` (line parsing, timestamp
  decoding, numeric coercion, intraday bar numbering), `get_yahoo_data`
  (modelled as an external fetch), and `get_feed_data` (per-symbol
  orchestration and frame registration);
* the rebalancing pipeline: `sample_data` (ratio estimation via
  `np.unique`/`np.where`, then dispatch on the sampling method).

Modelling conventions:

* Python floats are modelled as exact decimals (`Decimal`, value
  `num / 10 ^ scale`); every numeric literal the claims exercise is exact
  in this representation.  Ratios in the sampling pipeline are `Rat`.
* Python exceptions become the `PyError` inductive; a function that can
  raise returns `Except PyError _`.
* `datetime.fromtimestamp` is modelled as the epoch-seconds value itself,
  and the calendar date derived from it (`strftime '%Y-%m-%d'`) as the
  epoch-day key `floor (seconds) / 86400`; the grouping behaviour is
  unchanged by this choice of day key.
* String operations (`split(',')`, `upper()`, `lower()`, `in`) are
  implemented over `String.data` so that all of them evaluate by `decide`.
-/

deriving instance DecidableEq for Except

/-! ## Character and string helpers -/

/-- Model of Python `str.split(',')` over a character list: splits at every
comma, keeping empty fields. -/
def splitCommaAux : List Char → List (List Char)
  | [] => [[]]
  | c :: cs =>
    if c = ',' then [] :: splitCommaAux cs
    else
      match splitCommaAux cs with
      | f :: fs => (c :: f) :: fs
      | [] => [[c]]

/-- Model of Python `line.split(',')`. -/
def pySplitComma (s : String) : List String :=
  (splitCommaAux s.data).map (fun cs => ⟨cs⟩)

/-- Numeric value of a digit string. -/
def digitsToNat (cs : List Char) : Nat :=
  cs.foldl (fun a c => 10 * a + (c.toNat - 48)) 0

/-- Split a character list at every dot (used for the decimal-literal
grammar of Python `float`). -/
def splitDotAux : List Char → List (List Char)
  | [] => [[]]
  | c :: cs =>
    if c = '.' then [] :: splitDotAux cs
    else
      match splitDotAux cs with
      | f :: fs => (c :: f) :: fs
      | [] => [[c]]

/-- ASCII lower-casing of one character (Python `str.lower` restricted to
the ASCII range, which covers stock symbols). -/
def lowerChar (c : Char) : Char :=
  if 'A' ≤ c ∧ c ≤ 'Z' then Char.ofNat (c.toNat + 32) else c

/-- ASCII upper-casing of one character. -/
def upperChar (c : Char) : Char :=
  if 'a' ≤ c ∧ c ≤ 'z' then Char.ofNat (c.toNat - 32) else c

/-- Model of Python `str.lower()`. -/
def strLower (s : String) : String := ⟨s.data.map lowerChar⟩

/-- Model of Python `str.upper()`. -/
def strUpper (s : String) : String := ⟨s.data.map upperChar⟩

/-- Model of Python `c in s` for a single character. -/
def strContainsChar (s : String) (c : Char) : Bool := s.data.contains c

/-- Model of `re.findall('\d+', s)[0]`: the first maximal run of digits,
as a number, or `none` when the string has no digit. -/
def firstDigitRun (s : String) : Option Nat :=
  let cs := (s.data.dropWhile (fun c => !c.isDigit)).takeWhile Char.isDigit
  if cs.isEmpty then none else some (digitsToNat cs)

/-! ## Exact decimals: the model of Python float values -/

/-- An exact decimal number `num / 10 ^ scale`.  Models the Python float
values appearing in the feed pipeline; every value the claims exercise is
an exact decimal, so no rounding is involved. -/
structure Decimal where
  num : Int
  scale : Nat
deriving DecidableEq, Repr

/-- Addition of exact decimals. -/
def Decimal.add (a b : Decimal) : Decimal :=
  let s := max a.scale b.scale
  ⟨a.num * 10 ^ (s - a.scale) + b.num * 10 ^ (s - b.scale), s⟩

/-- Multiplication of exact decimals. -/
def Decimal.mul (a b : Decimal) : Decimal :=
  ⟨a.num * b.num, a.scale + b.scale⟩

/-- The decimal value of a natural number. -/
def Decimal.ofNat (n : Nat) : Decimal := ⟨n, 0⟩

/-- Floor of a decimal, as an integer. -/
def Decimal.floorInt (a : Decimal) : Int := Int.fdiv a.num (10 ^ a.scale)

/-- Model of Python `float(s)` on the plain decimal-literal grammar
(optional sign, digits with an optional single dot): `none` models a
`ValueError`.  The exponent/infinity forms of the full grammar never occur
in the quote feed. -/
def pyFloat? (s : String) : Option Decimal :=
  let signBody : Int × List Char :=
    match s.data with
    | '-' :: rest => (-1, rest)
    | '+' :: rest => (1, rest)
    | cs => (1, cs)
  match splitDotAux signBody.2 with
  | [ip] =>
    if !ip.isEmpty ∧ ip.all Char.isDigit then
      some ⟨signBody.1 * (digitsToNat ip : Int), 0⟩
    else none
  | [ip, fp] =>
    if !(ip ++ fp).isEmpty ∧ ip.all Char.isDigit ∧ fp.all Char.isDigit then
      some ⟨signBody.1 * ((digitsToNat ip * 10 ^ fp.length + digitsToNat fp : Nat) : Int),
            fp.length⟩
    else none
  | _ => none

/-- Model of Python `int(s)` (and of `pandas.astype(int)` on a string
column): optional sign followed by digits; `none` models a `ValueError`. -/
def pyInt? (s : String) : Option Int :=
  let signBody : Int × List Char :=
    match s.data with
    | '-' :: rest => (-1, rest)
    | '+' :: rest => (1, rest)
    | cs => (1, cs)
  if !signBody.2.isEmpty ∧ signBody.2.all Char.isDigit then
    some (signBody.1 * (digitsToNat signBody.2 : Int))
  else none

/-! ## Python exceptions -/

/-- The exceptions the embedded code can raise.  `valueError` carries the
offending string (for coercion failures) or message (for the unknown
sampling method); `indexError` models indexing an empty selection;
`unboundLocalError` models reading `day_item` before assignment;
`zeroDivisionError` is the class named by the spec's error taxonomy. -/
inductive PyError
  | indexError
  | valueError (msg : String)
  | unboundLocalError
  | zeroDivisionError
deriving DecidableEq, Repr

/-! ## The intraday feed pipeline: `get_google_data` -/

/-- One assembled record of the parse loop of `get_google_data`, before
type coercion: the tuple
`(dt, dt_date, open_item, high_item, low_item, close_item, volume_item)`.
`dt` is the epoch-seconds timestamp (`day_item + interval * offset`);
`dt_date` is the calendar-day key derived from it; the OHLCV fields are
still the raw strings of the feed line. -/
structure RawRecord where
  dt : Decimal
  dt_date : Int
  open_ : String
  high : String
  low : String
  close : String
  volume : String
deriving DecidableEq, Repr

/-- The calendar-day key of a timestamp: whole epoch seconds grouped into
epoch days (the model of `strftime '%Y-%m-%d'`). -/
def dayKey (ts : Decimal) : Int := Int.fdiv ts.floorInt 86400

/-- The record assembled for one well-formed feed line, given the decoded
timestamp and the six split fields
`[dt_item, close_item, high_item, low_item, open_item, volume_item]`. -/
def mkRawRecord (ts : Decimal) (items : List String) : RawRecord :=
  ⟨ts, dayKey ts, items.getD 4 "", items.getD 2 "", items.getD 3 "",
   items.getD 1 "", items.getD 5 ""⟩

/-- The line-processing loop of `get_google_data`.  For each line: split on
commas; skip the line unless it has exactly 6 fields; decode the time
marker (`a`-prefixed markers set `day_item` and reset the offset to 0,
other markers are numeric offsets from the current `day_item`); assemble
the record.  The `Option Decimal` argument is the state of the Python
local `day_item`: `none` before any anchor line has been seen, in which
case a relative line raises `UnboundLocalError`. -/
def googleParseLoop (interval : Nat) :
    List String → Option Decimal → Except PyError (List RawRecord)
  | [], _ => .ok []
  | line :: rest, dayBase =>
    let items := pySplitComma line
    if items.length = 6 then
      let dt_item := items.getD 0 ""
      match dt_item.data with
      | [] => .error .indexError
      | c0 :: ctail =>
        if c0 = 'a' then
          match pyFloat? ⟨ctail⟩ with
          | none => .error (.valueError (⟨ctail⟩ : String))
          | some day_item =>
            let ts := day_item.add ((Decimal.ofNat interval).mul (Decimal.ofNat 0))
            (googleParseLoop interval rest (some day_item)).map
              (fun recs => mkRawRecord ts items :: recs)
        else
          match pyFloat? dt_item with
          | none => .error (.valueError dt_item)
          | some offset =>
            match dayBase with
            | none => .error .unboundLocalError
            | some day_item =>
              let ts := day_item.add ((Decimal.ofNat interval).mul offset)
              (googleParseLoop interval rest dayBase).map
                (fun recs => mkRawRecord ts items :: recs)
    else
      googleParseLoop interval rest dayBase

/-- One row after numeric coercion (`astype(float)` on open/high/low/close
and `astype(int)` on volume), still carrying the grouping key `dt_date`. -/
structure CBar where
  dt : Decimal
  dt_date : Int
  open_ : Decimal
  high : Decimal
  low : Decimal
  close : Decimal
  volume : Int
deriving DecidableEq, Repr

/-- Numeric coercion of one record; a field that does not parse raises a
`ValueError` naming the offending string, which is fatal for the whole
table. -/
def coerceRecord (r : RawRecord) : Except PyError CBar :=
  match pyFloat? r.open_ with
  | none => .error (.valueError r.open_)
  | some o =>
    match pyFloat? r.high with
    | none => .error (.valueError r.high)
    | some h =>
      match pyFloat? r.low with
      | none => .error (.valueError r.low)
      | some l =>
        match pyFloat? r.close with
        | none => .error (.valueError r.close)
        | some c =>
          match pyInt? r.volume with
          | none => .error (.valueError r.volume)
          | some v => .ok ⟨r.dt, r.dt_date, o, h, l, c, v⟩

/-- Coercion of the whole assembled table (the two `astype` calls): the
first unparsable field aborts with its error, producing no table. -/
def coerceAll : List RawRecord → Except PyError (List CBar)
  | [] => .ok []
  | r :: rs =>
    match coerceRecord r with
    | .error e => .error e
    | .ok c =>
      match coerceAll rs with
      | .error e => .error e
      | .ok cs => .ok (c :: cs)

/-! ### Intraday bar numbering: `groupby('date').cumcount()` and
`groupby('date').tail(1)` -/

/-- Bump the running per-date counter (state of the cumulative count). -/
def bumpCount (d : Int) : List (Int × Nat) → List (Int × Nat)
  | [] => [(d, 1)]
  | (k, n) :: rest => if k = d then (k, n + 1) :: rest else (k, n) :: bumpCount d rest

/-- Look up the running per-date counter (0 when the date is new). -/
def lookupCount (d : Int) : List (Int × Nat) → Nat
  | [] => 0
  | (k, n) :: rest => if k = d then n else lookupCount d rest

/-- `groupby(dates).cumcount()` as a left-to-right pass carrying the
per-date counters seen so far. -/
def cumcountAux : List Int → List (Int × Nat) → List Nat
  | [], _ => []
  | d :: ds, seen => lookupCount d seen :: cumcountAux ds (bumpCount d seen)

/-- The 0-based running count of each row within its date group, in
arrival order (`date_group.cumcount()`). -/
def cumcount (ds : List Int) : List Nat := cumcountAux ds []

/-- The position of the last occurrence of `d`, if any. -/
def lastIndexOf? (d : Int) : List Int → Option Nat
  | [] => none
  | x :: xs =>
    match lastIndexOf? d xs with
    | some j => some (j + 1)
    | none => if x = d then some 0 else none

/-- The distinct values of a list (only membership matters downstream). -/
def distinctInts : List Int → List Int
  | [] => []
  | x :: xs =>
    let r := distinctInts xs
    if x ∈ r then r else x :: r

/-- `date_group.tail(1).index`: the position of the last row of each date
group. -/
def groupTailIndices (ds : List Int) : List Nat :=
  (distinctInts ds).filterMap (fun d => lastIndexOf? d ds)

/-- The `end_of_day` column: `False` everywhere, then `True` at the last
row of each date group. -/
def eodFlags (ds : List Int) : List Bool :=
  (List.range ds.length).map (fun i => (groupTailIndices ds).contains i)

/-- One bar of the final intraday table.  The grouping key `date` has been
dropped: only the full timestamp remains as row identity. -/
structure GBar where
  datetime : Decimal
  open_ : Decimal
  high : Decimal
  low : Decimal
  close : Decimal
  volume : Int
  bar_number : Nat
  end_of_day : Bool
deriving DecidableEq, Repr

/-- Attach `bar_number` and `end_of_day` to the coerced rows and drop the
`date` column. -/
def assembleBars : List CBar → List Nat → List Bool → List GBar
  | c :: cs, n :: ns, e :: es =>
    ⟨c.dt, c.open_, c.high, c.low, c.close, c.volume, n, e⟩ :: assembleBars cs ns es
  | _, _, _ => []

/-- `get_google_data` on the raw response text (already split into lines):
skip the 7 preamble lines, run the parse loop with no anchor seen, coerce
the numeric fields, then number the intraday bars and mark the end of each
trading day. -/
def get_google_data (text : List String) (interval : Nat) :
    Except PyError (List GBar) :=
  match googleParseLoop interval (text.drop 7) none with
  | .error e => .error e
  | .ok recs =>
    match coerceAll recs with
    | .error e => .error e
    | .ok cbars =>
      let dates := cbars.map (fun c => c.dt_date)
      .ok (assembleBars cbars (cumcount dates) (eodFlags dates))

/-- `get_google_data`'s request construction: the symbol is upper-cased,
the interval is 60 times the leading integer of the fractal (an absent
leading integer raises `IndexError` from `re.findall(...)[0]`), and the
lookback period is clamped to 50 days.  `http` abstracts the network
request, returning the response text split into lines. -/
def get_google_symbol (http : String → Nat → Nat → List String)
    (symbol : String) (lookback_period : Nat) (fractal : String) :
    Except PyError (List GBar) :=
  match firstDigitRun fractal with
  | none => .error .indexError
  | some m =>
    let interval := 60 * m
    let lookback := if lookback_period > 50 then 50 else lookback_period
    get_google_data (http (strUpper symbol) interval lookback) interval

/-! ## The feed orchestrator: `get_feed_data` -/

/-- One row of the daily (Yahoo) table after the column renaming glue.
The daily backend and its reindexing are external collaborators; only the
row count of the result matters to the orchestrator. -/
structure DailyBar where
  datetime : Int
  open_ : Decimal
  high : Decimal
  low : Decimal
  close : Decimal
  volume : Int
deriving DecidableEq, Repr

/-- A table registered with the frame store: one per symbol, either daily
or intraday. -/
inductive FeedTable
  | daily (rows : List DailyBar)
  | intraday (rows : List GBar)
deriving DecidableEq, Repr

/-- The row count of a registered table (`len(df)`). -/
def FeedTable.size : FeedTable → Nat
  | .daily rows => rows.length
  | .intraday rows => rows.length

/-- The symbol loop of `get_feed_data`.  For each symbol in declared
order: fetch through the selected backend; a non-empty table is registered
in the frame store under the lower-cased symbol, an empty one is skipped
with a log line.  There is no exception handler in the loop: a backend
error stops the iteration there, keeping the registrations made so far and
propagating the error (`Option PyError` in the result). -/
def get_feed_loop (daily_data : Bool) (yahoo : String → List DailyBar)
    (google : String → Except PyError (List GBar)) :
    List String → List (String × FeedTable) × Option PyError
  | [] => ([], none)
  | item :: rest =>
    let dfE : Except PyError FeedTable :=
      if daily_data then .ok (.daily (yahoo item))
      else (google item).map .intraday
    match dfE with
    | .error e => ([], some e)
    | .ok df =>
      let tailResult := get_feed_loop daily_data yahoo google rest
      if df.size > 0 then
        ((strLower item, df) :: tailResult.1, tailResult.2)
      else
        tailResult

/-- `get_feed_data`: decide the granularity once for the whole group (the
daily path iff the fractal contains the daily marker `d`), run the symbol
loop with the selected backend, and report whether daily data was used.
`yahoo` abstracts `get_yahoo_data` (network fetch plus renaming glue);
`http` abstracts the Google quote request of `get_google_data`. -/
def get_feed_data (members : List String) (fractal : String)
    (lookback_period : Nat) (yahoo : String → List DailyBar)
    (http : String → Nat → Nat → List String) :
    (List (String × FeedTable) × Option PyError) × Bool :=
  let daily_data := strContainsChar fractal 'd'
  (get_feed_loop daily_data yahoo
      (fun item => get_google_symbol http item lookback_period fractal) members,
   daily_data)

/-! ## The rebalancing pipeline: `sample_data` -/

/-- Insert into a sorted list (ascending). -/
def insertSorted (x : Int) : List Int → List Int
  | [] => [x]
  | y :: ys => if x ≤ y then x :: y :: ys else y :: insertSorted x ys

/-- Ascending insertion sort. -/
def sortInts (l : List Int) : List Int := l.foldr insertSorted []

/-- `np.unique(y)`: the distinct label values in ascending order. -/
def np_unique_vals (y : List Int) : List Int := sortInts (distinctInts y)

/-- The counts returned by `np.unique(y, return_counts=True)`, aligned
with `np_unique_vals`. -/
def np_unique_counts (y : List Int) : List Nat :=
  (np_unique_vals y).map (fun v => y.count v)

/-- `np.where(pred)[0][0]`: the position of the first element satisfying
the predicate; `none` models the `IndexError` of indexing an empty match
array. -/
def whereFirst (p : Int → Bool) : List Int → Option Nat
  | [] => none
  | v :: vs => if p v then some 0 else (whereFirst p vs).map (fun i => i + 1)

/-- The elementwise predicate `uv == target_value`. -/
def eqTarget (tv v : Int) : Bool := v = tv

/-- The elementwise predicate `uv != target_value`. -/
def neTarget (tv v : Int) : Bool := !(v = tv : Bool)

/-- The auto-estimation of the sampling ratio in `sample_data`
(taken when the configured ratio is not positive):
`uc[nontarget_index] / uc[target_index] - 1.0` over the unique-value
counts, where each index is the first match of the corresponding
predicate; a target value absent from `y` makes `np.where(...)[0]` empty,
so indexing it raises `IndexError`. -/
def estimate_ratio (y : List Int) (target_value : Int) : Except PyError Rat :=
  let uv := np_unique_vals y
  let uc := np_unique_counts y
  match whereFirst (eqTarget target_value) uv with
  | none => .error .indexError
  | some target_index =>
    match whereFirst (neTarget target_value) uv with
    | none => .error .indexError
    | some nontarget_index =>
      .ok ((uc.getD nontarget_index 0 : Rat) / (uc.getD target_index 0 : Rat) - 1)

/-- The samplers of the dispatch chain, with the constructor arguments
used at each call site.  The imblearn algorithms themselves are external
collaborators. -/
inductive Sampler
  | RandomUnderSampler
  | TomekLinks
  | ClusterCentroids
  | NearMiss (version : Nat)
  | NeighbourhoodCleaningRule (size_ngh : Nat)
  | RandomOverSampler (ratio : Rat)
  | SMOTE (ratio : Rat) (kind : String)
  | SMOTETomek (ratio : Rat)
  | SMOTEENN (ratio : Rat)
  | EasyEnsemble
  | BalanceCascade
deriving DecidableEq, Repr

/-- Modelled from the spec: the members of the `SamplingMethod`
enumeration (defined in `alphapy.globals`, which is outside this source
tree) — the closed enumeration of under-sampling, over-sampling, combined
over/under-sampling and ensemble strategies matched by the dispatch arms
of `sample_data`. -/
def samplingMethods : List String :=
  ["under_random", "under_tomek", "under_cluster", "under_nearmiss",
   "under_ncr", "over_random", "over_smote", "over_smoteb", "over_smotesv",
   "overunder_smote_tomek", "overunder_smote_enn", "ensemble_easy",
   "ensemble_bc"]

/-- The dispatch chain of `sample_data`: maps the configured sampling
method to a concrete sampler; any other method raises
`ValueError('Unknown Sampling Method %s' % sampling_method)`. -/
def choose_sampler (sampling_method : String) (ratio : Rat) :
    Except PyError Sampler :=
  if sampling_method = "under_random" then .ok .RandomUnderSampler
  else if sampling_method = "under_tomek" then .ok .TomekLinks
  else if sampling_method = "under_cluster" then .ok .ClusterCentroids
  else if sampling_method = "under_nearmiss" then .ok (.NearMiss 1)
  else if sampling_method = "under_ncr" then .ok (.NeighbourhoodCleaningRule 51)
  else if sampling_method = "over_random" then .ok (.RandomOverSampler ratio)
  else if sampling_method = "over_smote" then .ok (.SMOTE ratio "regular")
  else if sampling_method = "over_smoteb" then .ok (.SMOTE ratio "borderline1")
  else if sampling_method = "over_smotesv" then .ok (.SMOTE ratio "svm")
  else if sampling_method = "overunder_smote_tomek" then .ok (.SMOTETomek ratio)
  else if sampling_method = "overunder_smote_enn" then .ok (.SMOTEENN ratio)
  else if sampling_method = "ensemble_easy" then .ok .EasyEnsemble
  else if sampling_method = "ensemble_bc" then .ok .BalanceCascade
  else .error (.valueError ("Unknown Sampling Method " ++ sampling_method))

/-- `sample_data` on the training set: compute the ratio (the configured
one when positive, otherwise auto-estimated from `y_train`), then choose
the sampler by the configured method, then run its fit-and-resample
operation.  `fit_sample` abstracts the external imblearn algorithm. -/
def sample_data (sampling_method : String) (sampling_ratio : Rat)
    (target_value : Int)
    (fit_sample : Sampler → List (List Rat) × List Int → List (List Rat) × List Int)
    (X_train : List (List Rat)) (y_train : List Int) :
    Except PyError (List (List Rat) × List Int) :=
  let ratioE : Except PyError Rat :=
    if sampling_ratio > 0 then .ok sampling_ratio
    else estimate_ratio y_train target_value
  match ratioE with
  | .error e => .error e
  | .ok ratio =>
    match choose_sampler sampling_method ratio with
    | .error e => .error e
    | .ok sampler => .ok (fit_sample sampler (X_train, y_train))

/-! ## Concrete inputs used by the witnesses and counterexamples -/

/-- The 7 preamble lines of a Google quote response (content irrelevant:
they are skipped). -/
def preamble7 : List String := ["h1", "h2", "h3", "h4", "h5", "h6", "h7"]

/-- A quote backend whose response for `AAA` carries an unparsable volume
field (`xx`) and whose response for any other symbol is well-formed. -/
def httpBadVolume (symbol : String) (_interval _lookback : Nat) : List String :=
  if symbol = "AAA" then preamble7 ++ ["a1000,1,2,3,4,xx"]
  else preamble7 ++ ["a1000,1,2,3,4,5"]

/-- A quote backend returning no data rows for `AAA` and three well-formed
rows for any other symbol. -/
def httpEmptyThenThree (symbol : String) (_interval _lookback : Nat) : List String :=
  if symbol = "AAA" then preamble7
  else preamble7 ++ ["a1000,1,2,3,4,5", "1,1,2,3,4,5", "2,1,2,3,4,5"]

/-- A daily backend returning no rows (the daily path is unused in the
intraday scenarios). -/
def yahooEmpty (_symbol : String) : List DailyBar := []

/-- An intraday normalizer result: empty for `AAA`, one bar otherwise. -/
def tablesW (symbol : String) : List GBar :=
  if symbol = "AAA" then [] else [⟨⟨1000, 0⟩, ⟨4, 0⟩, ⟨2, 0⟩, ⟨3, 0⟩, ⟨1, 0⟩, 5, 0, true⟩]

/-- The `tablesW` results wrapped as a successful backend. -/
def googleW (symbol : String) : Except PyError (List GBar) := .ok (tablesW symbol)

/-- A backend that raises on every symbol. -/
def googleErr (_symbol : String) : Except PyError (List GBar) := .error .indexError

/-- An identity fit-and-resample operation (stands for the external
imblearn algorithm in concrete runs). -/
def fitId : Sampler → List (List Rat) × List Int → List (List Rat) × List Int :=
  fun _ p => p

/-! ## Helper lemmas about the embedded operations -/

theorem mapGetD {α β : Type} (f : α → β) (dA : α) (dB : β) :
    ∀ (l : List α) (i : Nat), i < l.length → (l.map f).getD i dB = f (l.getD i dA)
  | _ :: _, 0, _ => rfl
  | _ :: l, i + 1, h => mapGetD f dA dB l i (Nat.lt_of_succ_lt_succ h)

theorem getD_mem_of_lt : ∀ (l : List Int) (i : Nat), i < l.length → l.getD i 0 ∈ l
  | a :: l, 0, _ => List.mem_cons_self a l
  | a :: l, i + 1, h =>
    List.mem_cons_of_mem a (getD_mem_of_lt l i (Nat.lt_of_succ_lt_succ h))

theorem lookupCount_bumpCount (x d : Int) :
    ∀ seen : List (Int × Nat),
      lookupCount x (bumpCount d seen) =
        lookupCount x seen + (if x = d then 1 else 0) := by
  intro seen
  induction seen with
  | nil =>
    by_cases hxd : x = d
    · subst hxd; simp [bumpCount, lookupCount]
    · have hdx : ¬d = x := fun h => hxd h.symm
      simp [bumpCount, lookupCount, hxd, hdx]
  | cons p rest ih =>
    obtain ⟨k, n⟩ := p
    by_cases hkd : k = d
    · subst hkd
      by_cases hxk : x = k
      · subst hxk; simp [bumpCount, lookupCount]
      · have hkx : ¬k = x := fun h => hxk h.symm
        simp [bumpCount, lookupCount, hxk, hkx]
    · by_cases hxk : x = k
      · subst hxk
        have hxd : ¬x = d := hkd
        simp [bumpCount, lookupCount, hkd, hxd]
      · have hkx : ¬k = x := fun h => hxk h.symm
        simp [bumpCount, lookupCount, hkd, hkx, ih]

theorem count_singleton_ite (x d : Int) : List.count x [d] = if x = d then 1 else 0 := by
  by_cases h : x = d <;> simp [List.count_cons, h, eq_comm]

theorem cumcountAux_getD :
    ∀ (ds pre : List Int) (seen : List (Int × Nat)),
      (∀ x, lookupCount x seen = pre.count x) →
      ∀ i, i < ds.length →
        (cumcountAux ds seen).getD i 0 = (pre ++ ds.take i).count (ds.getD i 0) := by
  intro ds
  induction ds with
  | nil => intro pre seen hseen i hi; exact absurd hi (by simp)
  | cons d ds ih =>
    intro pre seen hseen i hi
    cases i with
    | zero => simpa [cumcountAux] using hseen d
    | succ i =>
      have hseen' : ∀ x, lookupCount x (bumpCount d seen) = (pre ++ [d]).count x := by
        intro x
        rw [lookupCount_bumpCount, hseen, List.count_append, count_singleton_ite]
      have := ih (pre ++ [d]) (bumpCount d seen) hseen' i (Nat.lt_of_succ_lt_succ hi)
      simpa [cumcountAux, List.append_assoc] using this

theorem cumcount_getD (ds : List Int) (i : Nat) (hi : i < ds.length) :
    (cumcount ds).getD i 0 = (ds.take i).count (ds.getD i 0) := by
  have := cumcountAux_getD ds [] [] (fun x => by simp [lookupCount]) i hi
  simpa using this

theorem lastIndexOf?_none_not_mem (d : Int) :
    ∀ l : List Int, lastIndexOf? d l = none → d ∉ l := by
  intro l
  induction l with
  | nil => intro _ h; exact absurd h (List.not_mem_nil d)
  | cons x xs ih =>
    intro h
    simp only [lastIndexOf?] at h
    cases hsub : lastIndexOf? d xs with
    | some j => rw [hsub] at h; exact absurd h (by simp)
    | none =>
      rw [hsub] at h
      by_cases hxd : x = d
      · rw [if_pos hxd] at h; exact absurd h (by simp)
      · intro hmem
        rcases List.mem_cons.mp hmem with h1 | h2
        · exact hxd h1.symm
        · exact ih hsub h2

theorem lastIndexOf?_eq_none_of_not_mem (d : Int) :
    ∀ l : List Int, d ∉ l → lastIndexOf? d l = none := by
  intro l
  induction l with
  | nil => intro _; rfl
  | cons x xs ih =>
    intro h
    have hxd : ¬x = d := fun hh => h (hh ▸ List.mem_cons_self x xs)
    have hxs : d ∉ xs := fun hh => h (List.mem_cons_of_mem x hh)
    simp only [lastIndexOf?, ih hxs, if_neg hxd]

theorem lastIndexOf?_spec (d : Int) :
    ∀ (l : List Int) (i : Nat), lastIndexOf? d l = some i →
      i < l.length ∧ l.getD i 0 = d ∧ d ∉ l.drop (i + 1) := by
  intro l
  induction l with
  | nil => intro i h; exact absurd h (by simp [lastIndexOf?])
  | cons x xs ih =>
    intro i h
    simp only [lastIndexOf?] at h
    cases hsub : lastIndexOf? d xs with
    | some j =>
      rw [hsub] at h
      have hij : i = j + 1 := (Option.some.injEq _ _ ▸ h).symm
      subst hij
      obtain ⟨h1, h2, h3⟩ := ih j hsub
      exact ⟨Nat.succ_lt_succ h1, h2, h3⟩
    | none =>
      rw [hsub] at h
      by_cases hxd : x = d
      · rw [if_pos hxd] at h
        have hi0 : i = 0 := (Option.some.injEq _ _ ▸ h).symm
        subst hi0
        exact ⟨Nat.succ_pos _, hxd, lastIndexOf?_none_not_mem d xs hsub⟩
      · rw [if_neg hxd] at h; exact absurd h (by simp)

theorem lastIndexOf?_of_last (d : Int) :
    ∀ (l : List Int) (i : Nat), i < l.length → l.getD i 0 = d →
      d ∉ l.drop (i + 1) → lastIndexOf? d l = some i := by
  intro l
  induction l with
  | nil => intro i h; exact absurd h (by simp)
  | cons x xs ih =>
    intro i hi hget hdrop
    cases i with
    | zero =>
      have hxd : x = d := hget
      have hnot : d ∉ xs := hdrop
      simp only [lastIndexOf?, lastIndexOf?_eq_none_of_not_mem d xs hnot, if_pos hxd]
    | succ i =>
      have := ih i (Nat.lt_of_succ_lt_succ hi) hget hdrop
      simp only [lastIndexOf?, this]

theorem mem_distinctInts (x : Int) : ∀ l : List Int, x ∈ distinctInts l ↔ x ∈ l := by
  intro l
  induction l with
  | nil => simp [distinctInts]
  | cons y ys ih =>
    simp only [distinctInts]
    by_cases hmem : y ∈ distinctInts ys
    · rw [if_pos hmem]
      constructor
      · intro h; exact List.mem_cons_of_mem y (ih.mp h)
      · intro h
        rcases List.mem_cons.mp h with h1 | h2
        · exact h1 ▸ hmem
        · exact ih.mpr h2
    · rw [if_neg hmem]
      constructor
      · intro h
        rcases List.mem_cons.mp h with h1 | h2
        · exact h1 ▸ List.mem_cons_self y ys
        · exact List.mem_cons_of_mem y (ih.mp h2)
      · intro h
        rcases List.mem_cons.mp h with h1 | h2
        · exact h1 ▸ List.mem_cons_self y (distinctInts ys)
        · exact List.mem_cons_of_mem y (ih.mpr h2)

theorem mem_groupTailIndices (ds : List Int) (i : Nat) (hi : i < ds.length) :
    i ∈ groupTailIndices ds ↔ ds.getD i 0 ∉ ds.drop (i + 1) := by
  constructor
  · intro h
    rcases List.mem_filterMap.mp h with ⟨d, _, hlast⟩
    obtain ⟨_, hget, hdrop⟩ := lastIndexOf?_spec d ds i hlast
    rw [hget]; exact hdrop
  · intro h
    apply List.mem_filterMap.mpr
    refine ⟨ds.getD i 0, ?_, ?_⟩
    · exact (mem_distinctInts _ ds).mpr (getD_mem_of_lt ds i hi)
    · exact lastIndexOf?_of_last _ ds i hi rfl h

theorem rangeGetD (n i : Nat) (h : i < n) : (List.range n).getD i 0 = i := by
  rw [List.getD_eq_getElem (List.range n) 0 (by simpa using h)]
  simp

theorem eodFlags_getD (ds : List Int) (i : Nat) (hi : i < ds.length) :
    ((eodFlags ds).getD i false = true) ↔ ds.getD i 0 ∉ ds.drop (i + 1) := by
  have hlen : i < (List.range ds.length).length := by simpa using hi
  have : (eodFlags ds).getD i false = (groupTailIndices ds).contains i := by
    unfold eodFlags
    rw [mapGetD _ 0 false (List.range ds.length) i hlen, rangeGetD _ _ hi]
  rw [this]
  rw [List.contains_eq_any_beq]
  constructor
  · intro h
    have : i ∈ groupTailIndices ds := by
      rcases List.any_eq_true.mp h with ⟨j, hj, hbeq⟩
      have : i = j := by simpa using hbeq
      exact this ▸ hj
    exact (mem_groupTailIndices ds i hi).mp this
  · intro h
    apply List.any_eq_true.mpr
    exact ⟨i, (mem_groupTailIndices ds i hi).mpr h, by simp⟩

theorem whereFirst_eq_none (p : Int → Bool) :
    ∀ l : List Int, whereFirst p l = none ↔ ∀ x ∈ l, p x = false := by
  intro l
  induction l with
  | nil => simp [whereFirst]
  | cons v vs ih =>
    simp only [whereFirst]
    by_cases hv : p v = true
    · rw [if_pos hv]
      constructor
      · intro h; exact absurd h (by simp)
      · intro h; exact absurd (h v (List.mem_cons_self v vs)) (by simp [hv])
    · rw [if_neg hv]
      constructor
      · intro h x hx
        rcases List.mem_cons.mp hx with h1 | h2
        · exact h1 ▸ Bool.eq_false_iff.mpr hv
        · cases hsub : whereFirst p vs with
          | some j => rw [hsub] at h; exact absurd h (by simp)
          | none => exact (ih.mp hsub) x h2
      · intro h
        have hsub : whereFirst p vs = none :=
          ih.mpr (fun x hx => h x (List.mem_cons_of_mem v hx))
        rw [hsub]; rfl

theorem whereFirst_spec (p : Int → Bool) :
    ∀ (l : List Int) (i : Nat), whereFirst p l = some i →
      i < l.length ∧ p (l.getD i 0) = true ∧ l.find? p = some (l.getD i 0) := by
  intro l
  induction l with
  | nil => intro i h; exact absurd h (by simp [whereFirst])
  | cons v vs ih =>
    intro i h
    simp only [whereFirst] at h
    by_cases hv : p v = true
    · rw [if_pos hv] at h
      have hi0 : i = 0 := (Option.some.injEq _ _ ▸ h).symm
      subst hi0
      exact ⟨Nat.succ_pos _, hv, by simp [List.find?, hv]⟩
    · rw [if_neg hv] at h
      cases hsub : whereFirst p vs with
      | none => rw [hsub] at h; exact absurd h (by simp)
      | some j =>
        rw [hsub] at h
        have hij : i = j + 1 := by simpa using h.symm
        subst hij
        obtain ⟨h1, h2, h3⟩ := ih j hsub
        refine ⟨Nat.succ_lt_succ h1, h2, ?_⟩
        simp only [List.find?, Bool.eq_false_iff.mpr hv]
        exact h3

theorem mem_insertSorted (x y : Int) :
    ∀ l : List Int, (y ∈ insertSorted x l ↔ y = x ∨ y ∈ l) := by
  intro l
  induction l with
  | nil => simp [insertSorted]
  | cons z zs ih =>
    simp only [insertSorted]
    by_cases hxz : x ≤ z
    · rw [if_pos hxz]; simp
    · rw [if_neg hxz]
      simp only [List.mem_cons, ih]
      tauto

theorem mem_sortInts (y : Int) : ∀ l : List Int, y ∈ sortInts l ↔ y ∈ l := by
  intro l
  induction l with
  | nil => simp [sortInts]
  | cons z zs ih =>
    have : sortInts (z :: zs) = insertSorted z (sortInts zs) := rfl
    rw [this, mem_insertSorted]
    simp only [List.mem_cons, ih]

theorem mem_np_unique_vals (x : Int) (y : List Int) :
    x ∈ np_unique_vals y ↔ x ∈ y := by
  unfold np_unique_vals
  rw [mem_sortInts, mem_distinctInts]

theorem estimate_ratio_not_mem (y : List Int) (tv : Int) (h : tv ∉ y) :
    estimate_ratio y tv = .error .indexError := by
  have hnone : whereFirst (eqTarget tv) (np_unique_vals y) = none := by
    apply (whereFirst_eq_none _ _).mpr
    intro x hx
    have hxy : x ∈ y := (mem_np_unique_vals x y).mp hx
    have hxtv : ¬x = tv := fun hh => h (hh ▸ hxy)
    simp [eqTarget, hxtv]
  unfold estimate_ratio
  simp only [hnone]

theorem coerceRecord_error_is_valueError (r : RawRecord) (e : PyError)
    (h : coerceRecord r = .error e) : ∃ s, e = .valueError s := by
  unfold coerceRecord at h
  cases h1 : pyFloat? r.open_ with
  | none => rw [h1] at h; exact ⟨r.open_, by simpa using h.symm⟩
  | some o =>
    rw [h1] at h
    cases h2 : pyFloat? r.high with
    | none => rw [h2] at h; exact ⟨r.high, by simpa using h.symm⟩
    | some hh =>
      rw [h2] at h
      cases h3 : pyFloat? r.low with
      | none => rw [h3] at h; exact ⟨r.low, by simpa using h.symm⟩
      | some l =>
        rw [h3] at h
        cases h4 : pyFloat? r.close with
        | none => rw [h4] at h; exact ⟨r.close, by simpa using h.symm⟩
        | some c =>
          rw [h4] at h
          cases h5 : pyInt? r.volume with
          | none => rw [h5] at h; exact ⟨r.volume, by simpa using h.symm⟩
          | some v => rw [h5] at h; exact absurd h (by simp)

theorem coerceAll_error_of_mem :
    ∀ rs : List RawRecord,
      (∃ r ∈ rs, ∃ e, coerceRecord r = .error e) →
      ∃ e, coerceAll rs = .error e := by
  intro rs
  induction rs with
  | nil => intro h; rcases h with ⟨r, hr, _⟩; exact absurd hr (List.not_mem_nil r)
  | cons r0 rest ih =>
    intro h
    cases hc : coerceRecord r0 with
    | error e => exact ⟨e, by simp [coerceAll, hc]⟩
    | ok c =>
      rcases h with ⟨r, hr, e, he⟩
      rcases List.mem_cons.mp hr with h1 | h2
      · subst h1; rw [hc] at he; exact absurd he (by simp)
      · rcases ih ⟨r, h2, e, he⟩ with ⟨e', he'⟩
        exact ⟨e', by simp [coerceAll, hc, he']⟩

theorem googleParseLoop_skip (interval : Nat) (line : String) (ls : List String)
    (db : Option Decimal) (h : (pySplitComma line).length ≠ 6) :
    googleParseLoop interval (line :: ls) db = googleParseLoop interval ls db := by
  simp only [googleParseLoop]
  rw [if_neg h]

theorem googleParseLoop_anchor (interval : Nat) (line ds c h l o v : String)
    (dtail : List Char) (d : Decimal) (ls : List String) (db : Option Decimal)
    (hsplit : pySplitComma line = [ds, c, h, l, o, v])
    (hds : ds.data = 'a' :: dtail)
    (hnum : pyFloat? ⟨dtail⟩ = some d) :
    googleParseLoop interval (line :: ls) db =
      (googleParseLoop interval ls (some d)).map
        (fun recs =>
          mkRawRecord (d.add ((Decimal.ofNat interval).mul (Decimal.ofNat 0)))
            [ds, c, h, l, o, v] :: recs) := by
  simp only [googleParseLoop, hsplit, hds, hnum, List.length_cons, List.length_nil,
    List.getD_cons_zero, if_true, reduceIte]

theorem googleParseLoop_offset (interval : Nat) (line ds c h l o v : String)
    (c0 : Char) (ctail : List Char) (off d : Decimal) (ls : List String)
    (hsplit : pySplitComma line = [ds, c, h, l, o, v])
    (hds : ds.data = c0 :: ctail) (hc0 : c0 ≠ 'a')
    (hnum : pyFloat? ds = some off) :
    googleParseLoop interval (line :: ls) (some d) =
      (googleParseLoop interval ls (some d)).map
        (fun recs =>
          mkRawRecord (d.add ((Decimal.ofNat interval).mul off))
            [ds, c, h, l, o, v] :: recs) := by
  simp only [googleParseLoop, hsplit, hds, hnum, hc0, List.length_cons, List.length_nil,
    List.getD_cons_zero, if_false, reduceIte, ite_false]

theorem googleParseLoop_unbound_step (interval : Nat) (line ds c h l o v : String)
    (c0 : Char) (ctail : List Char) (off : Decimal) (ls : List String)
    (hsplit : pySplitComma line = [ds, c, h, l, o, v])
    (hds : ds.data = c0 :: ctail) (hc0 : c0 ≠ 'a')
    (hnum : pyFloat? ds = some off) :
    googleParseLoop interval (line :: ls) none = .error .unboundLocalError := by
  simp only [googleParseLoop, hsplit, hds, hnum, hc0, List.length_cons, List.length_nil,
    List.getD_cons_zero, if_false, reduceIte, ite_false]

theorem googleParseLoop_head_fields (interval : Nat) (line ds c h l o v : String)
    (ls : List String) (db : Option Decimal) (r : RawRecord) (rs : List RawRecord)
    (hsplit : pySplitComma line = [ds, c, h, l, o, v])
    (hok : googleParseLoop interval (line :: ls) db = .ok (r :: rs)) :
    r.close = c ∧ r.high = h ∧ r.low = l ∧ r.open_ = o ∧ r.volume = v := by
  cases hds : ds.data with
  | nil =>
    simp only [googleParseLoop, hsplit, hds, List.length_cons, List.length_nil,
      List.getD_cons_zero, reduceIte] at hok
    exact Except.noConfusion hok
  | cons c0 ctail =>
    by_cases hc0 : c0 = 'a'
    · subst hc0
      cases hval : pyFloat? (⟨ctail⟩ : String) with
      | none =>
        simp only [googleParseLoop, hsplit, hds, hval, List.length_cons, List.length_nil,
          List.getD_cons_zero, reduceIte] at hok
        exact Except.noConfusion hok
      | some dI =>
        rw [googleParseLoop_anchor interval line ds c h l o v ctail dI ls db
          hsplit hds hval] at hok
        cases hloop : googleParseLoop interval ls (some dI) with
        | error e => rw [hloop] at hok; simp [Except.map] at hok
        | ok recs =>
          rw [hloop] at hok
          simp only [Except.map, Except.ok.injEq, List.cons.injEq] at hok
          rw [← hok.1]
          exact ⟨rfl, rfl, rfl, rfl, rfl⟩
    · cases hval : pyFloat? ds with
      | none =>
        simp only [googleParseLoop, hsplit, hds, hval, hc0, List.length_cons,
          List.length_nil, List.getD_cons_zero, reduceIte, ite_false] at hok
        exact Except.noConfusion hok
      | some off =>
        cases db with
        | none =>
          rw [googleParseLoop_unbound_step interval line ds c h l o v c0 ctail off ls
            hsplit hds hc0 hval] at hok
          simp at hok
        | some dI =>
          rw [googleParseLoop_offset interval line ds c h l o v c0 ctail off dI ls
            hsplit hds hc0 hval] at hok
          cases hloop : googleParseLoop interval ls (some dI) with
          | error e => rw [hloop] at hok; simp [Except.map] at hok
          | ok recs =>
            rw [hloop] at hok
            simp only [Except.map, Except.ok.injEq, List.cons.injEq] at hok
            rw [← hok.1]
            exact ⟨rfl, rfl, rfl, rfl, rfl⟩

theorem coerceAll_error_src :
    ∀ (rs : List RawRecord) (e : PyError), coerceAll rs = .error e →
      ∃ r ∈ rs, coerceRecord r = .error e := by
  intro rs
  induction rs with
  | nil => intro e h; exact absurd h (by simp [coerceAll])
  | cons r0 rest ih =>
    intro e h
    cases hc : coerceRecord r0 with
    | error e0 =>
      rw [show e0 = e by simpa [coerceAll, hc] using h] at hc
      exact ⟨r0, List.mem_cons_self r0 rest, hc⟩
    | ok c0 =>
      cases hall : coerceAll rest with
      | error e1 =>
        have he : e1 = e := by simpa [coerceAll, hc, hall] using h
        rcases ih e1 hall with ⟨r, hr, hre⟩
        exact ⟨r, List.mem_cons_of_mem r0 hr, he ▸ hre⟩
      | ok cs => simp [coerceAll, hc, hall] at h

theorem get_google_data_coercion_error (lines : List String) (interval : Nat)
    (recs : List RawRecord)
    (hparse : googleParseLoop interval (lines.drop 7) none = .ok recs)
    (hbad : ∃ r ∈ recs, ∃ e, coerceRecord r = .error e) :
    ∃ s, get_google_data lines interval = .error (.valueError s) := by
  rcases coerceAll_error_of_mem recs hbad with ⟨e, he⟩
  rcases coerceAll_error_src recs e he with ⟨r, _, hre⟩
  rcases coerceRecord_error_is_valueError r e hre with ⟨s, hs⟩
  refine ⟨s, ?_⟩
  simp only [get_google_data, hparse, he, hs]

theorem get_feed_loop_all_ok (yahoo : String → List DailyBar)
    (google : String → Except PyError (List GBar)) (tables : String → List GBar) :
    ∀ members : List String,
      (∀ s ∈ members, google s = .ok (tables s)) →
      get_feed_loop false yahoo google members =
        (members.filterMap
            (fun s =>
              if 0 < (tables s).length then
                some (strLower s, FeedTable.intraday (tables s))
              else none),
          none) := by
  intro members
  induction members with
  | nil => intro _; rfl
  | cons s rest ih =>
    intro hall
    have hs := hall s (List.mem_cons_self s rest)
    have hrest := ih (fun x hx => hall x (List.mem_cons_of_mem s hx))
    by_cases hlen : 0 < (tables s).length
    · simp [get_feed_loop, hs, Except.map, hrest, FeedTable.size, List.filterMap_cons, hlen]
    · simp [get_feed_loop, hs, Except.map, hrest, FeedTable.size, List.filterMap_cons, hlen,
        Nat.le_zero.mp (Nat.not_lt.mp hlen)]

theorem get_feed_loop_all_daily (yahoo : String → List DailyBar)
    (google : String → Except PyError (List GBar)) :
    ∀ members : List String,
      get_feed_loop true yahoo google members =
        (members.filterMap
            (fun s =>
              if 0 < (yahoo s).length then
                some (strLower s, FeedTable.daily (yahoo s))
              else none),
          none) := by
  intro members
  induction members with
  | nil => rfl
  | cons s rest ih =>
    by_cases hlen : 0 < (yahoo s).length
    · simp [get_feed_loop, ih, FeedTable.size, List.filterMap_cons, hlen]
    · simp [get_feed_loop, ih, FeedTable.size, List.filterMap_cons, hlen,
        Nat.le_zero.mp (Nat.not_lt.mp hlen)]

theorem get_feed_loop_error_head (yahoo : String → List DailyBar)
    (google : String → Except PyError (List GBar)) (item : String)
    (rest : List String) (e : PyError) (h : google item = .error e) :
    get_feed_loop false yahoo google (item :: rest) = ([], some e) := by
  simp [get_feed_loop, h, Except.map]

/-! ## The claims -/

/-- Claim C1: timestamp decoding of the bar-record parser.  For a
well-formed 6-field line whose marker starts with the anchor symbol `a`,
`day_item` is set to the parsed value of the remaining characters, the
offset resets to 0, and the rest of the stream is parsed with the new
`day_item`; for a non-anchor marker, the marker is a numeric offset from
the most recent `day_item`; in both cases the row's timestamp is
`day_item + interval * offset`.  On the two quoted lines with
`interval_seconds = 300`, the timestamps are epoch `1609459200` and epoch
`1609459200 + 300 * 60`. -/
theorem google_timestamp_decoding :
    (∀ (interval : Nat) (line ds c h l o v : String) (dtail : List Char)
        (d : Decimal) (ls : List String) (db : Option Decimal),
        pySplitComma line = [ds, c, h, l, o, v] →
        ds.data = 'a' :: dtail →
        pyFloat? ⟨dtail⟩ = some d →
        googleParseLoop interval (line :: ls) db =
          (googleParseLoop interval ls (some d)).map
            (fun recs =>
              mkRawRecord (d.add ((Decimal.ofNat interval).mul (Decimal.ofNat 0)))
                [ds, c, h, l, o, v] :: recs)) ∧
    (∀ (interval : Nat) (line ds c h l o v : String) (c0 : Char)
        (ctail : List Char) (off d : Decimal) (ls : List String),
        pySplitComma line = [ds, c, h, l, o, v] →
        ds.data = c0 :: ctail → c0 ≠ 'a' →
        pyFloat? ds = some off →
        googleParseLoop interval (line :: ls) (some d) =
          (googleParseLoop interval ls (some d)).map
            (fun recs =>
              mkRawRecord (d.add ((Decimal.ofNat interval).mul off))
                [ds, c, h, l, o, v] :: recs)) ∧
    (googleParseLoop 300
        ["a1609459200,10,12,9,11,1000", "60,10.5,12.5,9.5,11.5,2000"] none).map
        (fun recs => recs.map (fun r => r.dt))
      = .ok [⟨1609459200, 0⟩, ⟨1609459200 + 300 * 60, 0⟩] := by
  refine ⟨?_, ?_, by decide⟩
  · intro interval line ds c h l o v dtail d ls db h1 h2 h3
    exact googleParseLoop_anchor interval line ds c h l o v dtail d ls db h1 h2 h3
  · intro interval line ds c h l o v c0 ctail off d ls h1 h2 h3 h4
    exact googleParseLoop_offset interval line ds c h l o v c0 ctail off d ls h1 h2 h3 h4

theorem google_timestamp_decoding_witness :
    googleParseLoop 300
        ["a1609459200,10,12,9,11,1000", "60,10.5,12.5,9.5,11.5,2000"] none =
      (googleParseLoop 300 ["60,10.5,12.5,9.5,11.5,2000"]
          (some ⟨1609459200, 0⟩)).map
        (fun recs =>
          mkRawRecord
            ((⟨1609459200, 0⟩ : Decimal).add
              ((Decimal.ofNat 300).mul (Decimal.ofNat 0)))
            ["a1609459200", "10", "12", "9", "11", "1000"] :: recs) :=
  google_timestamp_decoding.1 300 "a1609459200,10,12,9,11,1000" "a1609459200"
    "10" "12" "9" "11" "1000" "1609459200".data ⟨1609459200, 0⟩
    ["60,10.5,12.5,9.5,11.5,2000"] none (by decide) (by decide) (by decide)

/-- Claim C6: malformed-line tolerance and field order.  A line whose
comma-split does not have exactly 6 fields is silently skipped; a
well-formed line's 6 fields are interpreted in the fixed order
`{time_marker, close, high, low, open, volume}`; a feed with one 5-field
line amid two well-formed lines yields 2 rows and no error. -/
theorem malformed_line_tolerance :
    (∀ (interval : Nat) (line : String) (ls : List String) (db : Option Decimal),
        (pySplitComma line).length ≠ 6 →
        googleParseLoop interval (line :: ls) db = googleParseLoop interval ls db) ∧
    (∀ (interval : Nat) (line ds c h l o v : String) (ls : List String)
        (db : Option Decimal) (r : RawRecord) (rs : List RawRecord),
        pySplitComma line = [ds, c, h, l, o, v] →
        googleParseLoop interval (line :: ls) db = .ok (r :: rs) →
        r.close = c ∧ r.high = h ∧ r.low = l ∧ r.open_ = o ∧ r.volume = v) ∧
    (get_google_data
        (preamble7 ++ ["a1000,1,2,3,4,5", "1,2,3,4,5", "2,1,2,3,4,5"]) 300).map
        List.length = .ok 2 := by
  refine ⟨googleParseLoop_skip, ?_, by decide⟩
  intro interval line ds c h l o v ls db r rs h1 h2
  exact googleParseLoop_head_fields interval line ds c h l o v ls db r rs h1 h2

theorem malformed_line_tolerance_witness :
    googleParseLoop 300 ["1,2,3,4,5"] none = googleParseLoop 300 [] none :=
  malformed_line_tolerance.1 300 "1,2,3,4,5" [] none (by decide)

/-- Claim C7: intraday bar numbering and end-of-day marking.  Rows are
grouped by the calendar-day key of the timestamp: `bar_number` at each
position is the 0-based running count of earlier rows with the same date,
`end_of_day` is true exactly when no later row has the same date, and the
final schema (`GBar`) carries no date column.  On a single calendar day
with 3 rows, `bar_number` is `[0, 1, 2]` and `end_of_day` is
`[false, false, true]`. -/
theorem bar_numbering_and_eod :
    (∀ (ds : List Int) (i : Nat), i < ds.length →
        (cumcount ds).getD i 0 = (ds.take i).count (ds.getD i 0)) ∧
    (∀ (ds : List Int) (i : Nat), i < ds.length →
        (((eodFlags ds).getD i false) = true ↔ ds.getD i 0 ∉ ds.drop (i + 1))) ∧
    (get_google_data
        (preamble7 ++ ["a1000,1,2,3,4,5", "1,1,2,3,4,5", "2,1,2,3,4,5"]) 60).map
        (fun t => t.map (fun b => (b.bar_number, b.end_of_day)))
      = .ok [(0, false), (1, false), (2, true)] :=
  ⟨cumcount_getD, eodFlags_getD, by decide⟩

theorem bar_numbering_and_eod_witness :
    ((cumcount [7, 7, 7]).getD 2 0
        = (([7, 7, 7] : List Int).take 2).count (([7, 7, 7] : List Int).getD 2 0)) ∧
    (((eodFlags [7, 7, 7]).getD 2 false) = true ↔
        ([7, 7, 7] : List Int).getD 2 0 ∉ ([7, 7, 7] : List Int).drop 3) :=
  ⟨bar_numbering_and_eod.1 [7, 7, 7] 2 (by decide),
   bar_numbering_and_eod.2.1 [7, 7, 7] 2 (by decide)⟩

/-- Claim C9: the parse is well-defined only when an anchor line precedes
every offset line.  If every line before the first well-formed 6-field
line is malformed and that first data line carries a numeric non-anchor
marker, the loop reads `day_item` before it was ever assigned and fails
with `UnboundLocalError` — no row is produced and the line is not
skipped.  Concretely, a response whose first data row is relative fails
that way through the whole pipeline. -/
theorem unbound_day_base_on_leading_offset :
    (∀ (interval : Nat) (pre : List String) (line ds c h l o v : String)
        (c0 : Char) (ctail : List Char) (off : Decimal) (rest : List String),
        (∀ p ∈ pre, (pySplitComma p).length ≠ 6) →
        pySplitComma line = [ds, c, h, l, o, v] →
        ds.data = c0 :: ctail → c0 ≠ 'a' → pyFloat? ds = some off →
        googleParseLoop interval (pre ++ line :: rest) none
          = .error .unboundLocalError) ∧
    get_google_data (preamble7 ++ ["1,2,3,4,5,6"]) 300
      = .error .unboundLocalError := by
  refine ⟨?_, by decide⟩
  intro interval pre
  induction pre with
  | nil =>
    intro line ds c h l o v c0 ctail off rest hpre hsplit hds hc0 hnum
    rw [List.nil_append]
    exact googleParseLoop_unbound_step interval line ds c h l o v c0 ctail off rest
      hsplit hds hc0 hnum
  | cons p ps ih =>
    intro line ds c h l o v c0 ctail off rest hpre hsplit hds hc0 hnum
    rw [List.cons_append,
      googleParseLoop_skip interval p (ps ++ line :: rest) none
        (hpre p (List.mem_cons_self p ps))]
    exact ih line ds c h l o v c0 ctail off rest
      (fun q hq => hpre q (List.mem_cons_of_mem p hq)) hsplit hds hc0 hnum

theorem unbound_day_base_witness :
    googleParseLoop 300 (["x"] ++ ["1,2,3,4,5,6"]) none
      = .error .unboundLocalError :=
  unbound_day_base_on_leading_offset.1 300 ["x"] "1,2,3,4,5,6" "1" "2" "3" "4"
    "5" "6" '1' [] ⟨1, 0⟩ [] (by decide) (by decide) (by decide) (by decide)
    (by decide)

/-- Claim C2 counterexample: with a group of two symbols where the first
symbol's feed has an unparsable volume field (`xx`) and the second
symbol's feed is well-formed and non-empty, `get_google_data` for the
first symbol aborts with the coercion `ValueError`, and `get_feed_data`
does not contain it: the error escapes the loop and no symbol at all is
registered — the loop never reaches the healthy second symbol, contrary
to the claim that the error is contained and iteration continues. -/
theorem coercion_crashes_group_cex :
    get_google_symbol httpBadVolume "AAA" 10 "5min" = .error (.valueError "xx") ∧
    (get_feed_data ["AAA", "BBB"] "5min" 10 yahooEmpty httpBadVolume).1.2
      = some (.valueError "xx") ∧
    (get_feed_data ["AAA", "BBB"] "5min" 10 yahooEmpty httpBadVolume).1.1 = [] := by
  refine ⟨by decide, by decide, by decide⟩

/-- Claim C2 (amended): a numeric field that cannot be parsed aborts
normalization of that symbol's table with a `ValueError`, and — since
`get_feed_data` has no exception handler — a backend error at any symbol
stops the group loop there: the error propagates, the remaining symbols
are not processed, and nothing is registered for them. -/
theorem coercion_error_propagates :
    (∀ (lines : List String) (interval : Nat) (recs : List RawRecord),
        googleParseLoop interval (lines.drop 7) none = .ok recs →
        (∃ r ∈ recs, ∃ e, coerceRecord r = .error e) →
        ∃ s, get_google_data lines interval = .error (.valueError s)) ∧
    (∀ (yahoo : String → List DailyBar)
        (google : String → Except PyError (List GBar))
        (item : String) (rest : List String) (e : PyError),
        google item = .error e →
        get_feed_loop false yahoo google (item :: rest) = ([], some e)) :=
  ⟨get_google_data_coercion_error, get_feed_loop_error_head⟩

theorem coercion_error_propagates_witness :
    get_feed_loop false yahooEmpty googleErr ["S1", "S2"] = ([], some .indexError) :=
  coercion_error_propagates.2 yahooEmpty googleErr "S1" ["S2"] .indexError (by decide)

/-- Claim C8: empty-feed tolerance and registration.  With the intraday
backend succeeding on every symbol of the group, the loop registers, in
declared order, exactly the symbols whose table is non-empty, each under
its lower-cased name, and finishes without an error; the daily path
behaves the same; the granularity flag returned is whether the fractal
contains the daily marker.  Concretely, with an empty feed for the first
of two symbols and 3 rows for the second, exactly one table (`bbb`) is
registered and the run completes without raising. -/
theorem feed_empty_tolerance_and_registration :
    (∀ (yahoo : String → List DailyBar)
        (google : String → Except PyError (List GBar))
        (tables : String → List GBar) (members : List String),
        (∀ s ∈ members, google s = .ok (tables s)) →
        get_feed_loop false yahoo google members =
          (members.filterMap
              (fun s =>
                if 0 < (tables s).length then
                  some (strLower s, FeedTable.intraday (tables s))
                else none),
            none)) ∧
    (∀ (yahoo : String → List DailyBar)
        (google : String → Except PyError (List GBar)) (members : List String),
        get_feed_loop true yahoo google members =
          (members.filterMap
              (fun s =>
                if 0 < (yahoo s).length then
                  some (strLower s, FeedTable.daily (yahoo s))
                else none),
            none)) ∧
    (∀ (members : List String) (fractal : String) (lookback : Nat)
        (yahoo : String → List DailyBar) (http : String → Nat → Nat → List String),
        (get_feed_data members fractal lookback yahoo http).2
          = strContainsChar fractal 'd') ∧
    ((get_feed_data ["AAA", "BBB"] "5min" 10 yahooEmpty httpEmptyThenThree).1.1.map
        Prod.fst = ["bbb"] ∧
      (get_feed_data ["AAA", "BBB"] "5min" 10 yahooEmpty httpEmptyThenThree).1.2
        = none ∧
      (get_feed_data ["AAA", "BBB"] "5min" 10 yahooEmpty httpEmptyThenThree).1.1.length
        = 1) :=
  ⟨get_feed_loop_all_ok, get_feed_loop_all_daily,
   fun _ _ _ _ _ => rfl, by decide, by decide, by decide⟩

theorem feed_empty_tolerance_witness :
    get_feed_loop false yahooEmpty googleW ["AAA", "BBB"] =
      ((["AAA", "BBB"].filterMap
          (fun s =>
            if 0 < (tablesW s).length then
              some (strLower s, FeedTable.intraday (tablesW s))
            else none)),
        none) :=
  feed_empty_tolerance_and_registration.1 yahooEmpty googleW tablesW
    ["AAA", "BBB"] (fun _ _ => rfl)

/-- Claim C3 counterexample: when the target value is absent from `y`
(target count zero), auto ratio estimation fails with an `IndexError`
(indexing the empty `np.where` match), not with a ZeroDivision-class
error as the claim states. -/
theorem degenerate_ratio_error_class_cex :
    estimate_ratio [0, 0] 1 = .error .indexError ∧
    (Except.error .indexError : Except PyError Rat)
      ≠ .error .zeroDivisionError := by
  refine ⟨by decide, by decide⟩

/-- Claim C3 (amended): when the sampling ratio is auto-estimated and the
count of the target class in `y` is zero, ratio estimation fails loudly —
with an `IndexError` (the target value is then absent from the
unique-values array, so `np.where(uv == target)[0][0]` indexes an empty
selection) — rather than silently returning infinity or zero. -/
theorem degenerate_ratio_fails_loudly (y : List Int) (tv : Int)
    (h : y.count tv = 0) :
    estimate_ratio y tv = .error .indexError ∧
    ∀ q : Rat, estimate_ratio y tv ≠ .ok q := by
  have hmem : tv ∉ y := List.count_eq_zero.mp h
  have he := estimate_ratio_not_mem y tv hmem
  exact ⟨he, fun q hq => by rw [he] at hq; exact Except.noConfusion hq⟩

theorem degenerate_ratio_fails_loudly_witness :
    estimate_ratio [0, 0] 1 = .error .indexError ∧
    ∀ q : Rat, estimate_ratio [0, 0] 1 ≠ .ok q :=
  degenerate_ratio_fails_loudly [0, 0] 1 (by decide)

/-- Claim C4: the estimated ratio equals
`nontarget_count / target_count - 1.0`, where the non-target class is the
first distinct value other than the target in the ascending order of
unique values, for every `y` containing the target (and some non-target)
value; in particular `[A, A, A, B]` with target `B` gives `2.0` and
`[A, B]` with target `A` gives `0.0` (encoded `A = 0`, `B = 1`). -/
theorem estimated_ratio_formula :
    (∀ (y : List Int) (tv w : Int),
        tv ∈ y →
        (np_unique_vals y).find? (neTarget tv) = some w →
        estimate_ratio y tv
          = .ok ((y.count w : Rat) / (y.count tv : Rat) - 1)) ∧
    estimate_ratio [0, 0, 0, 1] 1 = .ok 2 ∧
    estimate_ratio [0, 1] 0 = .ok 0 := by
  refine ⟨?_, ?_, ?_⟩
  · intro y tv w hty hfind
    have htv_uv : tv ∈ np_unique_vals y := (mem_np_unique_vals tv y).mpr hty
    have hne : whereFirst (eqTarget tv) (np_unique_vals y) ≠ none := by
      intro hn
      have := (whereFirst_eq_none _ _).mp hn tv htv_uv
      simp [eqTarget] at this
    cases hti : whereFirst (eqTarget tv) (np_unique_vals y) with
    | none => exact absurd hti hne
    | some ti =>
      obtain ⟨hti_lt, hti_p, _⟩ := whereFirst_spec _ (np_unique_vals y) ti hti
      have hti_val : (np_unique_vals y).getD ti 0 = tv := by
        simpa [eqTarget] using hti_p
      have hnne : whereFirst (neTarget tv) (np_unique_vals y) ≠ none := by
        intro hn
        have hfn : (np_unique_vals y).find? (neTarget tv) = none :=
          List.find?_eq_none.mpr (fun x hx => by
            have := (whereFirst_eq_none _ _).mp hn x hx
            simp [this])
        rw [hfn] at hfind
        exact Option.noConfusion hfind
      cases hni : whereFirst (neTarget tv) (np_unique_vals y) with
      | none => exact absurd hni hnne
      | some ni =>
        obtain ⟨hni_lt, hni_p, hni_find⟩ :=
          whereFirst_spec _ (np_unique_vals y) ni hni
        have hw : (np_unique_vals y).getD ni 0 = w := by
          rw [hni_find] at hfind
          exact Option.some.inj hfind
        have hcti : (np_unique_counts y).getD ti 0 = y.count tv := by
          unfold np_unique_counts
          rw [mapGetD (fun v => y.count v) 0 0 (np_unique_vals y) ti hti_lt, hti_val]
        have hcni : (np_unique_counts y).getD ni 0 = y.count w := by
          unfold np_unique_counts
          rw [mapGetD (fun v => y.count v) 0 0 (np_unique_vals y) ni hni_lt, hw]
        unfold estimate_ratio
        simp only [hti, hni, hcti, hcni]
  · norm_num [estimate_ratio, np_unique_vals, np_unique_counts, distinctInts,
      sortInts, insertSorted, whereFirst, eqTarget, neTarget]
  · norm_num [estimate_ratio, np_unique_vals, np_unique_counts, distinctInts,
      sortInts, insertSorted, whereFirst, eqTarget, neTarget]

theorem estimated_ratio_formula_witness :
    estimate_ratio [0, 0, 0, 1] 1
      = .ok ((([0, 0, 0, 1] : List Int).count 0 : Rat)
          / (([0, 0, 0, 1] : List Int).count 1 : Rat) - 1) :=
  estimated_ratio_formula.1 [0, 0, 0, 1] 1 0 (by decide) (by decide)

/-- Claim C5: method dispatch of the resampler.  The dispatch errors if
and only if the configured method is outside the closed supported
enumeration; the error is a `ValueError` naming the unknown method; and on
that error `sample_data` aborts with the same error and no result — the
fit-and-resample operation is never applied. -/
theorem sampling_method_dispatch :
    ∀ (m : String) (r : Rat),
      ((∃ e, choose_sampler m r = .error e) ↔ m ∉ samplingMethods) ∧
      (m ∉ samplingMethods →
        choose_sampler m r
          = .error (.valueError ("Unknown Sampling Method " ++ m)) ∧
        ∀ (sr : Rat) (tv : Int)
          (fit : Sampler → List (List Rat) × List Int → List (List Rat) × List Int)
          (X : List (List Rat)) (y : List Int), 0 < sr →
          sample_data m sr tv fit X y
            = .error (.valueError ("Unknown Sampling Method " ++ m))) := by
  intro m r
  by_cases hm : m ∈ samplingMethods
  · refine ⟨⟨fun ⟨e, he⟩ => ?_, fun hnm => absurd hm hnm⟩,
      fun hnm => absurd hm hnm⟩
    exfalso
    rcases (by simpa [samplingMethods] using hm :
        m = "under_random" ∨ m = "under_tomek" ∨ m = "under_cluster" ∨
        m = "under_nearmiss" ∨ m = "under_ncr" ∨ m = "over_random" ∨
        m = "over_smote" ∨ m = "over_smoteb" ∨ m = "over_smotesv" ∨
        m = "overunder_smote_tomek" ∨ m = "overunder_smote_enn" ∨
        m = "ensemble_easy" ∨ m = "ensemble_bc") with
      h | h | h | h | h | h | h | h | h | h | h | h | h <;>
      (subst h; simp [choose_sampler] at he)
  · have hlist : ¬(m = "under_random" ∨ m = "under_tomek" ∨ m = "under_cluster" ∨
        m = "under_nearmiss" ∨ m = "under_ncr" ∨ m = "over_random" ∨
        m = "over_smote" ∨ m = "over_smoteb" ∨ m = "over_smotesv" ∨
        m = "overunder_smote_tomek" ∨ m = "overunder_smote_enn" ∨
        m = "ensemble_easy" ∨ m = "ensemble_bc") := by
      intro hcon
      exact hm (by simpa [samplingMethods] using hcon)
    push_neg at hlist
    obtain ⟨h1, h2, h3, h4, h5, h6, h7, h8, h9, h10, h11, h12, h13⟩ := hlist
    have hch : ∀ rr : Rat, choose_sampler m rr
        = .error (.valueError ("Unknown Sampling Method " ++ m)) := by
      intro rr
      simp [choose_sampler, h1, h2, h3, h4, h5, h6, h7, h8, h9, h10, h11, h12, h13]
    refine ⟨⟨fun _ => hm, fun _ => ⟨_, hch r⟩⟩, fun _ => ⟨hch r, ?_⟩⟩
    intro sr tv fit X y hsr
    simp [sample_data, hsr, hch sr]

theorem sampling_method_dispatch_witness :
    choose_sampler "bogus" 1
      = .error (.valueError ("Unknown Sampling Method " ++ "bogus")) ∧
    sample_data "bogus" 1 0 fitId [] []
      = .error (.valueError ("Unknown Sampling Method " ++ "bogus")) := by
  have h := (sampling_method_dispatch "bogus" 1).2 (by decide)
  exact ⟨h.1, h.2 1 0 fitId [] [] (by norm_num)⟩

/-- Claim C10: ratio estimation precedes method dispatch.  When the
configured ratio is not positive and the target value is absent from
`y_train`, `sample_data` fails with the estimation `IndexError` for every
configured method — including methods that never use the ratio and
unknown methods — so the unknown-method `ValueError` is never reached. -/
theorem ratio_estimation_precedes_dispatch :
    ∀ (m : String) (sr : Rat) (tv : Int)
      (fit : Sampler → List (List Rat) × List Int → List (List Rat) × List Int)
      (X : List (List Rat)) (y : List Int),
      sr ≤ 0 → tv ∉ y →
      sample_data m sr tv fit X y = .error .indexError ∧
      ∀ s, sample_data m sr tv fit X y ≠ .error (.valueError s) := by
  intro m sr tv fit X y hsr hmem
  have hnot : ¬sr > 0 := not_lt.mpr hsr
  have hest := estimate_ratio_not_mem y tv hmem
  have hmain : sample_data m sr tv fit X y = .error .indexError := by
    simp [sample_data, hnot, hest]
  exact ⟨hmain, fun s hs => by rw [hmain] at hs; simp at hs⟩

theorem ratio_estimation_precedes_dispatch_witness :
    sample_data "bogus" 0 1 fitId [] [0] = .error .indexError ∧
    ∀ s, sample_data "bogus" 0 1 fitId [] [0] ≠ .error (.valueError s) :=
  ratio_estimation_precedes_dispatch "bogus" 0 1 fitId [] [0] (le_refl 0)
    (by decide)
